import Mathlib

/-!
Verification development for the junk-lang interpreter (a Monkey-style
language front end written in Go).  The repository snapshot contains two
revisions of the Pratt parser:

* the file src/junk/parser/parser.go, an intermediate revision whose
  let and return statements still skip over tokens until a SEMICOLON
  (embedded below as namespace MidParser), and
* a later full revision (the first document of the unnamed parser source)
  with while statements, strings, arrays, hashes, calls, indexing and
  macro literals (embedded below as namespace FullParser).

The lexer embedded here is the file src/junk/lexer/lexer.go.  The token
package and the ast/object type declarations are not part of the snapshot;
the few pieces taken from them are modelled from the specification and are
marked as such in their doc comments.  Everything else is a direct
translation of the Go sources: Go pointers that may be nil are translated
as Option, Go interface values carrying typed nil pointers are translated
as the corresponding constructor applied to none, and the possibly
non-terminating parsing loops take an explicit fuel argument, returning
none when the fuel runs out.
-/

/-- Modelled from the spec: the token package is missing from src/; its
TokenType is the closed set of token type constants listed in section 3.1
of the specification.  The MACRO keyword type is named MACRO_KW here. -/
inductive TokenType where
  | ILLEGAL | EOF | IDENT | INT | STRING
  | ASSIGN | PLUS | MINUS | BANG | ASTERISK | SLASH
  | LT | GT | EQ | NOT_EQ
  | COMMA | SEMICOLON | COLON
  | LPAREN | RPAREN | LBRACE | RBRACE | LBRACKET | RBRACKET
  | FUNCTION | LET | TRUE | FALSE | IF | ELSE | RETURN | WHILE | MACRO_KW
deriving DecidableEq

/-- A token: a type and the literal source lexeme (token.Token). -/
structure Token where
  type : TokenType
  literal : String
deriving DecidableEq

/-- Modelled from the spec: the string value of each TokenType constant in
the missing token package (single-character types carry their lexeme,
keyword and class types carry their name), used in parser error messages. -/
def TokenType.str : TokenType → String
  | .ILLEGAL => "ILLEGAL" | .EOF => "EOF" | .IDENT => "IDENT"
  | .INT => "INT" | .STRING => "STRING"
  | .ASSIGN => "=" | .PLUS => "+" | .MINUS => "-" | .BANG => "!"
  | .ASTERISK => "*" | .SLASH => "/"
  | .LT => "<" | .GT => ">" | .EQ => "==" | .NOT_EQ => "!="
  | .COMMA => "," | .SEMICOLON => ";" | .COLON => ":"
  | .LPAREN => "(" | .RPAREN => ")"
  | .LBRACE => "\x7b" | .RBRACE => "\x7d"
  | .LBRACKET => "[" | .RBRACKET => "]"
  | .FUNCTION => "FUNCTION" | .LET => "LET" | .TRUE => "TRUE"
  | .FALSE => "FALSE" | .IF => "IF" | .ELSE => "ELSE"
  | .RETURN => "RETURN" | .WHILE => "WHILE" | .MACRO_KW => "MACRO"

/-- Modelled from the spec: token.LookupIdent of the missing token package,
classifying an identifier run against the keyword table listed in section
4.1 of the specification (fn, let, true, false, if, else, return, while,
macro); anything unknown is IDENT. -/
def LookupIdent (s : String) : TokenType :=
  if s = "fn" then .FUNCTION
  else if s = "let" then .LET
  else if s = "true" then .TRUE
  else if s = "false" then .FALSE
  else if s = "if" then .IF
  else if s = "else" then .ELSE
  else if s = "return" then .RETURN
  else if s = "while" then .WHILE
  else if s = "macro" then .MACRO_KW
  else .IDENT

namespace Lexer

/-- lexer.isLetter: ASCII letters, underscore, bang and question mark all
count as letter characters (src/junk/lexer/lexer.go). -/
def isLetter (c : Char) : Bool :=
  ('a' ≤ c && c ≤ 'z') || ('A' ≤ c && c ≤ 'Z') || c = '_' || c = '!' || c = '?'

/-- lexer.isDigit (src/junk/lexer/lexer.go). -/
def isDigit (c : Char) : Bool :=
  '0' ≤ c && c ≤ '9'

/-- The whitespace set consumed by lexer.eatWhitespace. -/
def isWhitespace (c : Char) : Bool :=
  c = ' ' || c = '\t' || c = '\n' || c = '\r'

/-- lexer.NextToken of src/junk/lexer/lexer.go, with the cursor into the
input string represented by the list of remaining characters.  The switch
handles only the eight single-character cases of that revision plus the
end of input; everything else goes through the letter/digit/ILLEGAL
default branch.  Note that there is no case for quote, minus, bang or the
other operator characters. -/
def NextToken (s : List Char) : Token × List Char :=
  let s := s.dropWhile isWhitespace
  match s with
  | [] => (⟨.EOF, ""⟩, [])
  | c :: rest =>
    if c = '=' then (⟨.ASSIGN, String.mk [c]⟩, rest)
    else if c = ';' then (⟨.SEMICOLON, String.mk [c]⟩, rest)
    else if c = '(' then (⟨.LPAREN, String.mk [c]⟩, rest)
    else if c = ')' then (⟨.RPAREN, String.mk [c]⟩, rest)
    else if c = ',' then (⟨.COMMA, String.mk [c]⟩, rest)
    else if c = '+' then (⟨.PLUS, String.mk [c]⟩, rest)
    else if c = '\x7b' then (⟨.LBRACE, String.mk [c]⟩, rest)
    else if c = '\x7d' then (⟨.RBRACE, String.mk [c]⟩, rest)
    else if isLetter c then
      let lit := (c :: rest).takeWhile isLetter
      (⟨LookupIdent (String.mk lit), String.mk lit⟩, (c :: rest).dropWhile isLetter)
    else if isDigit c then
      let lit := (c :: rest).takeWhile isDigit
      (⟨.INT, String.mk lit⟩, (c :: rest).dropWhile isDigit)
    else (⟨.ILLEGAL, String.mk [c]⟩, rest)

/-- Run the lexer over a whole input, collecting tokens up to and
including the first EOF token.  Every non-EOF token consumes at least one
character, so a fuel of length + 1 is always sufficient. -/
def lexAllAux : Nat → List Char → List Token
  | 0, _ => []
  | n + 1, s =>
    let (t, s1) := NextToken s
    if t.type = .EOF then [t] else t :: lexAllAux n s1

/-- All tokens of an input string, EOF included. -/
def lexAll (s : List Char) : List Token :=
  lexAllAux (s.length + 1) s

end Lexer

example : Lexer.lexAll "let x = 5".toList =
    [⟨.LET, "let"⟩, ⟨.IDENT, "x"⟩, ⟨.ASSIGN, "="⟩, ⟨.INT, "5"⟩, ⟨.EOF, ""⟩] := by
  rfl

/-- ast.Identifier: a token plus its string value. -/
structure Ident where
  token : Token
  value : String
deriving DecidableEq

/-!
The AST node family, translated from the node constructions performed by
the parser sources (the ast package declarations themselves are not in the
snapshot; every field below is exactly one the parsers assign).  A field of
Go interface or pointer type that a parser can leave nil is an Option.
-/

mutual
inductive Expr where
  | identifier (token : Token) (value : String)
  | integerLiteral (token : Token) (value : Int)
  | booleanLit (token : Token) (value : Bool)
  | stringLiteral (token : Token) (value : String)
  | prefixExpression (token : Token) (operator : String) (right : Option Expr)
  | infixExpression (token : Token) (operator : String) (left : Option Expr) (right : Option Expr)
  | ifExpression (token : Token) (condition : Option Expr) (consequence : Block)
      (alternative : Option Block)
  | functionLiteral (token : Token) (parameters : Option (List Ident)) (body : Block)
  | macroLiteral (token : Token) (parameters : Option (List Ident)) (body : Block)
  | callExpression (token : Token) (function : Option Expr)
      (arguments : Option (List (Option Expr)))
  | arrayLiteral (token : Token) (elements : Option (List (Option Expr)))
  | indexExpression (token : Token) (left : Option Expr) (index : Option Expr)
  | hashLiteral (token : Token) (pairs : List (Option Expr × Option Expr))

inductive LetNode where
  | mk (token : Token) (name : Ident) (value : Option Expr)

inductive ReturnNode where
  | mk (token : Token) (returnValue : Option Expr)

inductive WhileNode where
  | mk (token : Token) (condition : Option Expr) (body : Block)

inductive ExprStmtNode where
  | mk (token : Token) (expression : Option Expr)

inductive Stmt where
  | letStmt (p : Option LetNode)
  | returnStmt (p : Option ReturnNode)
  | whileStmt (node : WhileNode)
  | exprStmt (node : ExprStmtNode)

inductive Block where
  | mk (token : Token) (statements : List Stmt)
end

/-- ast.Program: the ordered top-level statements. -/
structure Program where
  statements : List Stmt

/-- ast.Node: the common interface of program, statements and expressions,
as a tagged union for the purposes of quote. -/
inductive Node where
  | exprNode (e : Expr)
  | stmtNode (s : Stmt)
  | programNode (p : Program)

/-- Modelled from the spec: the object package is missing from src/; of its
closed object family (section 3.3) only the Quote variant, the one
constructed by the quote function of src/junk/evaluator/quote_unquote.go,
is needed here. -/
inductive Object where
  | quoteObj (node : Node)

namespace Evaluator

/-- evaluator.quote of src/junk/evaluator/quote_unquote.go: the whole
function body is a single return of an object.Quote wrapping the node.
There is no traversal and no unquote handling in the source file. -/
def quote (node : Node) : Object :=
  Object.quoteObj node

end Evaluator

namespace Junk

/-!
Parser infrastructure shared verbatim by both parser revisions
(Parser struct, nextToken, expectPeek, peekError, noPrefixParseFnError,
the precedence ladder and the New priming sequence).
-/

/-- The parser state: current and peek token window, the tokens the lexer
has not yet produced (the Go parser pulls them one at a time from the
lexer; an exhausted lexer keeps returning EOF tokens, which the headD
below reproduces), and the accumulated error messages. -/
structure PState where
  curToken : Token
  peekToken : Token
  toks : List Token
  errors : List String
deriving DecidableEq

/-- The token the lexer yields forever once the input is exhausted. -/
def eofTok : Token := ⟨.EOF, ""⟩

/-- Parser.nextToken: shift the window by one token. -/
def nextToken (st : PState) : PState :=
  { st with
    curToken := st.peekToken
    peekToken := st.toks.headD eofTok
    toks := st.toks.tail }

/-- Parser.New primes the window with two nextToken calls (the zero-value
tokens it starts from are discarded by the two shifts). -/
def initState (ts : List Token) : PState :=
  nextToken (nextToken ⟨eofTok, eofTok, ts, []⟩)

/-- The message built by Parser.peekError. -/
def expectedMsg (t : TokenType) (got : TokenType) : String :=
  "expected next token to be " ++ t.str ++ ", got " ++ got.str ++ " instead"

/-- Parser.peekError: append one formatted message to the error list. -/
def peekError (t : TokenType) (st : PState) : PState :=
  { st with errors := st.errors ++ [expectedMsg t st.peekToken.type] }

/-- Parser.expectPeek: advance on a peek-type match, otherwise record one
error and leave the window alone. -/
def expectPeek (t : TokenType) (st : PState) : Bool × PState :=
  if st.peekToken.type = t then (true, nextToken st)
  else (false, peekError t st)

/-- The message built by Parser.noPrefixParseFnError. -/
def noPrefixMsg (t : TokenType) : String :=
  "no prefix parse function for " ++ t.str ++ " found"

/-- Parser.noPrefixParseFnError: append one message to the error list. -/
def noPrefixParseFnError (t : TokenType) (st : PState) : PState :=
  { st with errors := st.errors ++ [noPrefixMsg t] }

/-- The precedence ladder (iota constants; the intermediate parser.go stops
at CALL, the full revision adds INDEX). -/
def LOWEST : Nat := 1
def EQUALS : Nat := 2
def LESSGREATER : Nat := 3
def SUM : Nat := 4
def PRODUCT : Nat := 5
def PREFIXOP : Nat := 6
def CALL : Nat := 7
def INDEX : Nat := 8

/-- A parse outcome under fuel: none means the fuel ran out before the
code returned (the Go code would still be running). -/
abbrev PRes (α : Type) := Option (α × PState)

/-- Parser.parseIdentifier (identical in both revisions): wrap the current
token as an Identifier without advancing. -/
def parseIdentifier (st : PState) : Option Expr × PState :=
  (some (.identifier st.curToken st.curToken.literal), st)

/-- Parser.parseBoolean of the revisions that register TRUE and FALSE:
the value is whether the current token is TRUE. -/
def parseBoolean (st : PState) : Option Expr × PState :=
  (some (.booleanLit st.curToken (st.curToken.type = .TRUE)), st)

/-- parseStringLiteral of the full revision: wrap the current token. -/
def parseStringLiteral (st : PState) : Option Expr × PState :=
  (some (.stringLiteral st.curToken st.curToken.literal), st)

/-- Modelled from the Go standard library call strconv.ParseInt(lit, 0, 64)
restricted to the plain decimal literals the lexer produces (digit runs
without sign or base prefix; the octal reading of literals with leading
zeros and the underscore/base-prefix syntax of base 0 are not modelled,
no theorem below depends on such literals): the value of the digit run, or
none when the text is not a digit run or overflows int64. -/
def parseIntLit (s : String) : Option Int :=
  let v : Nat := s.toList.foldl (fun a c => a * 10 + (c.toNat - 48)) 0
  if s.toList ≠ [] ∧ s.toList.all Char.isDigit ∧ v ≤ 2 ^ 63 - 1 then
    some (v : Int)
  else none

/-- Parser.parseIntegerLiteral (identical in the two embedded revisions):
parse the current literal; on failure record one error and return nil. -/
def parseIntegerLiteral (st : PState) : Option Expr × PState :=
  match parseIntLit st.curToken.literal with
  | some v => (some (.integerLiteral st.curToken v), st)
  | none =>
    (none, { st with errors := st.errors ++
      ["could not parse \"" ++ st.curToken.literal ++ "\" as integer"] })

end Junk

namespace MidParser

/-!
The intermediate parser revision, src/junk/parser/parser.go: full Pratt
expression parsing for identifiers, integers, booleans, unary bang/minus,
grouping and if expressions, but parseLetStatement and parseReturnStatement
still skip tokens until a SEMICOLON (the TODO in the source), and
parseStatement has no WHILE case.
-/

open Junk

/-- The precedences map of parser.go (no LPAREN or LBRACKET entry in this
revision). -/
def precedences : TokenType → Option Nat
  | .EQ => some EQUALS
  | .NOT_EQ => some EQUALS
  | .LT => some LESSGREATER
  | .GT => some LESSGREATER
  | .PLUS => some SUM
  | .MINUS => some SUM
  | .SLASH => some PRODUCT
  | .ASTERISK => some PRODUCT
  | _ => none

/-- Parser.peekPrecedence: map lookup with LOWEST as default. -/
def peekPrecedence (st : PState) : Nat :=
  (precedences st.peekToken.type).getD LOWEST

/-- Parser.curPrecedence: map lookup with LOWEST as default. -/
def curPrecedence (st : PState) : Nat :=
  (precedences st.curToken.type).getD LOWEST

/-- The prefix handlers this revision registers in Parser.New. -/
inductive PrefixKind where
  | identK | intK | boolK | prefixK | groupK | ifK

/-- The prefixParseFns map of this revision: IDENT, INT, BANG, MINUS,
TRUE, FALSE, LPAREN and IF are registered; every other type has none. -/
def prefixParseFns : TokenType → Option PrefixKind
  | .IDENT => some .identK
  | .INT => some .intK
  | .BANG => some .prefixK
  | .MINUS => some .prefixK
  | .TRUE => some .boolK
  | .FALSE => some .boolK
  | .LPAREN => some .groupK
  | .IF => some .ifK
  | _ => none

/-- The infixParseFns map of this revision: the eight binary operator
types, all mapped to parseInfixExpression. -/
def infixParseFns : TokenType → Option Unit
  | .PLUS => some () | .MINUS => some () | .SLASH => some () | .ASTERISK => some ()
  | .EQ => some () | .NOT_EQ => some () | .LT => some () | .GT => some ()
  | _ => none

/-- The token-skipping loop shared by parseLetStatement and
parseReturnStatement of this revision: advance until the current token is
a SEMICOLON.  There is no EOF guard, so on an input whose remaining tokens
never include a SEMICOLON the Go loop never exits; here the fuel runs out
instead. -/
def skipToSemicolon : Nat → PState → Option PState
  | 0, _ => none
  | n + 1, st =>
    if st.curToken.type = .SEMICOLON then some st
    else skipToSemicolon n (nextToken st)

mutual

/-- Parser.parseExpression of parser.go: prefix dispatch (recording a
no-prefix error and returning nil when the table has no entry), then the
infix loop. -/
def parseExpression : Nat → Nat → PState → PRes (Option Expr)
  | 0, _, _ => none
  | n + 1, precedence, st =>
    match prefixParseFns st.curToken.type with
    | none => some (none, noPrefixParseFnError st.curToken.type st)
    | some k =>
      match
        (match k with
         | .identK => some (parseIdentifier st)
         | .intK => some (parseIntegerLiteral st)
         | .boolK => some (parseBoolean st)
         | .prefixK => parsePrefixExpression n st
         | .groupK => parseGroupedExpression n st
         | .ifK => parseIfExpression n st) with
      | none => none
      | some (leftExp, st1) => parseExprLoop n precedence leftExp st1

/-- The for loop of parseExpression: while the peek token is not a
SEMICOLON and the argument precedence is strictly below the peek
precedence, advance and run the infix handler, else return leftExp. -/
def parseExprLoop : Nat → Nat → Option Expr → PState → PRes (Option Expr)
  | 0, _, _, _ => none
  | n + 1, precedence, leftExp, st =>
    if st.peekToken.type ≠ .SEMICOLON ∧ precedence < peekPrecedence st then
      match infixParseFns st.peekToken.type with
      | none => some (leftExp, st)
      | some _ =>
        match parseInfixExpression n leftExp (nextToken st) with
        | none => none
        | some (newLeft, st2) => parseExprLoop n precedence newLeft st2
    else some (leftExp, st)

/-- Parser.parseInfixExpression: record the current operator token, then
recurse with the current (not next-lower) precedence. -/
def parseInfixExpression : Nat → Option Expr → PState → PRes (Option Expr)
  | 0, _, _ => none
  | n + 1, left, st =>
    let tok := st.curToken
    let precedence := curPrecedence st
    match parseExpression n precedence (nextToken st) with
    | none => none
    | some (right, st1) =>
      some (some (.infixExpression tok tok.literal left right), st1)

/-- Parser.parsePrefixExpression: record the operator, advance, parse the
operand at PREFIX precedence. -/
def parsePrefixExpression : Nat → PState → PRes (Option Expr)
  | 0, _ => none
  | n + 1, st =>
    let tok := st.curToken
    match parseExpression n PREFIXOP (nextToken st) with
    | none => none
    | some (right, st1) =>
      some (some (.prefixExpression tok tok.literal right), st1)

/-- Parser.parseGroupedExpression: advance, parse at LOWEST, expect an
RPAREN (nil on failure). -/
def parseGroupedExpression : Nat → PState → PRes (Option Expr)
  | 0, _ => none
  | n + 1, st =>
    match parseExpression n LOWEST (nextToken st) with
    | none => none
    | some (exp, st1) =>
      match expectPeek .RPAREN st1 with
      | (false, st2) => some (none, st2)
      | (true, st2) => some (exp, st2)

/-- Parser.parseIfExpression of parser.go. -/
def parseIfExpression : Nat → PState → PRes (Option Expr)
  | 0, _ => none
  | n + 1, st =>
    let tok := st.curToken
    match expectPeek .LPAREN st with
    | (false, st1) => some (none, st1)
    | (true, st1) =>
      match parseExpression n LOWEST (nextToken st1) with
      | none => none
      | some (cond, st2) =>
        match expectPeek .RPAREN st2 with
        | (false, st3) => some (none, st3)
        | (true, st3) =>
          match expectPeek .LBRACE st3 with
          | (false, st4) => some (none, st4)
          | (true, st4) =>
            match parseBlockStatement n st4 with
            | none => none
            | some (cons, st5) =>
              if st5.peekToken.type = .ELSE then
                match expectPeek .LBRACE (nextToken st5) with
                | (false, st6) => some (none, st6)
                | (true, st6) =>
                  match parseBlockStatement n st6 with
                  | none => none
                  | some (alt, st7) =>
                    some (some (.ifExpression tok cond cons (some alt)), st7)
              else some (some (.ifExpression tok cond cons none), st5)

/-- Parser.parseBlockStatement: loop statements until an RBRACE.  As in
the source there is no EOF guard in the loop condition. -/
def parseBlockStatement : Nat → PState → PRes Block
  | 0, _ => none
  | n + 1, st =>
    let tok := st.curToken
    match parseBlockLoop n [] (nextToken st) with
    | none => none
    | some (stmts, st1) => some (Block.mk tok stmts, st1)

/-- The for loop of parseBlockStatement: parse a statement, keep it when
the returned interface is not nil, advance, repeat until RBRACE. -/
def parseBlockLoop : Nat → List Stmt → PState → PRes (List Stmt)
  | 0, _, _ => none
  | n + 1, acc, st =>
    if st.curToken.type = .RBRACE then some (acc, st)
    else
      match parseStatement n st with
      | none => none
      | some (stmtOpt, st1) =>
        let acc1 := match stmtOpt with
          | some s => acc ++ [s]
          | none => acc
        parseBlockLoop n acc1 (nextToken st1)

/-- Parser.parseStatement of parser.go: LET and RETURN dispatch to their
parsers, everything else is an expression statement.  The sub-parsers
return typed pointers; a nil pointer from parseLetStatement or
parseReturnStatement is wrapped into a NON-nil interface value here (Go
typed-nil semantics), which is why the result is some of a constructor
applied to none rather than none. -/
def parseStatement : Nat → PState → PRes (Option Stmt)
  | 0, _ => none
  | n + 1, st =>
    match st.curToken.type with
    | .LET => (parseLetStatement n st).map fun r => (some (Stmt.letStmt r.1), r.2)
    | .RETURN => (parseReturnStatement n st).map fun r => (some (Stmt.returnStmt r.1), r.2)
    | _ => (parseExpressionStatement n st).map fun r => (some (Stmt.exprStmt r.1), r.2)

/-- Parser.parseLetStatement of parser.go: expect IDENT then ASSIGN, then
(the TODO in the source) skip tokens until a SEMICOLON; the Value field is
never assigned and stays nil. -/
def parseLetStatement : Nat → PState → PRes (Option LetNode)
  | 0, _ => none
  | n + 1, st =>
    let tok := st.curToken
    match expectPeek .IDENT st with
    | (false, st1) => some (none, st1)
    | (true, st1) =>
      let name : Ident := ⟨st1.curToken, st1.curToken.literal⟩
      match expectPeek .ASSIGN st1 with
      | (false, st2) => some (none, st2)
      | (true, st2) =>
        match skipToSemicolon n st2 with
        | none => none
        | some st3 => some (some (LetNode.mk tok name none), st3)

/-- Parser.parseReturnStatement of parser.go: advance, then skip tokens
until a SEMICOLON; the ReturnValue field stays nil. -/
def parseReturnStatement : Nat → PState → PRes (Option ReturnNode)
  | 0, _ => none
  | n + 1, st =>
    let tok := st.curToken
    match skipToSemicolon n (nextToken st) with
    | none => none
    | some st1 => some (some (ReturnNode.mk tok none), st1)

/-- Parser.parseExpressionStatement: parse an expression at LOWEST (the
Expression field is nil when that fails), consume one optional trailing
SEMICOLON, and return the statement (the pointer is never nil). -/
def parseExpressionStatement : Nat → PState → PRes ExprStmtNode
  | 0, _ => none
  | n + 1, st =>
    let tok := st.curToken
    match parseExpression n LOWEST st with
    | none => none
    | some (e, st1) =>
      let st2 := if st1.peekToken.type = .SEMICOLON then nextToken st1 else st1
      some (ExprStmtNode.mk tok e, st2)

/-- Parser.ParseProgram: loop until the current token is EOF, parsing one
statement per iteration, appending it when the returned interface value is
not nil (which, by the typed-nil wrapping in parseStatement, is always the
case in this revision), advancing after each. -/
def ParseProgram : Nat → PState → PRes Program
  | 0, _ => none
  | n + 1, st =>
    if st.curToken.type = .EOF then some (⟨[]⟩, st)
    else
      match parseStatement n st with
      | none => none
      | some (stmtOpt, st1) =>
        match ParseProgram n (nextToken st1) with
        | none => none
        | some (prog, st2) =>
          match stmtOpt with
          | some s => some (⟨s :: prog.statements⟩, st2)
          | none => some (prog, st2)

end

end MidParser

namespace FullParser

/-!
The full parser revision (the first document of the unnamed parser source):
while statements, strings, arrays, hashes, call and index expressions,
function and macro literals, and let/return statements that parse their
value expression with an optional trailing semicolon.
-/

open Junk

/-- The precedences map of the full revision (LPAREN at CALL and LBRACKET
at INDEX added). -/
def precedences : TokenType → Option Nat
  | .EQ => some EQUALS
  | .NOT_EQ => some EQUALS
  | .LT => some LESSGREATER
  | .GT => some LESSGREATER
  | .PLUS => some SUM
  | .MINUS => some SUM
  | .SLASH => some PRODUCT
  | .ASTERISK => some PRODUCT
  | .LPAREN => some CALL
  | .LBRACKET => some INDEX
  | _ => none

/-- Parser.peekPrecedence. -/
def peekPrecedence (st : PState) : Nat :=
  (precedences st.peekToken.type).getD LOWEST

/-- Parser.curPrecedence. -/
def curPrecedence (st : PState) : Nat :=
  (precedences st.curToken.type).getD LOWEST

/-- The prefix handlers the full revision registers in Parser.New. -/
inductive PrefixKind where
  | identK | intK | boolK | prefixK | groupK | ifK | fnK | strK | arrayK | hashK | macroK

/-- The prefixParseFns map of the full revision. -/
def prefixParseFns : TokenType → Option PrefixKind
  | .IDENT => some .identK
  | .INT => some .intK
  | .BANG => some .prefixK
  | .MINUS => some .prefixK
  | .TRUE => some .boolK
  | .FALSE => some .boolK
  | .LPAREN => some .groupK
  | .IF => some .ifK
  | .FUNCTION => some .fnK
  | .STRING => some .strK
  | .LBRACKET => some .arrayK
  | .LBRACE => some .hashK
  | .MACRO_KW => some .macroK
  | _ => none

/-- The infix handlers the full revision registers in Parser.New. -/
inductive InfixKind where
  | infixK | callK | indexK

/-- The infixParseFns map of the full revision. -/
def infixParseFns : TokenType → Option InfixKind
  | .PLUS => some .infixK | .MINUS => some .infixK
  | .SLASH => some .infixK | .ASTERISK => some .infixK
  | .EQ => some .infixK | .NOT_EQ => some .infixK
  | .LT => some .infixK | .GT => some .infixK
  | .LPAREN => some .callK
  | .LBRACKET => some .indexK
  | _ => none

/-- The body of the trailing-semicolon loop of parseLetStatement and
parseReturnStatement of the full revision, with an explicit step bound:
consume tokens while the peek token is a SEMICOLON. -/
def consumeSemisAux : Nat → PState → PState
  | 0, st => st
  | n + 1, st =>
    if st.peekToken.type = .SEMICOLON then consumeSemisAux n (nextToken st)
    else st

/-- The trailing-semicolon loop: each iteration removes one token from the
supply (and once the supply is empty the peek token becomes EOF, which is
not a SEMICOLON), so toks.length + 2 steps always suffice; the lemma
consumeSemis_eq below shows this definition satisfies exactly the
defining equation of the Go loop. -/
def consumeSemis (st : PState) : PState :=
  consumeSemisAux (st.toks.length + 2) st

theorem consumeSemisAux_succ (n : Nat) (st : PState) :
    consumeSemisAux (n + 1) st =
      if st.peekToken.type = .SEMICOLON then consumeSemisAux n (nextToken st)
      else st := rfl

theorem consumeSemisAux_eof (m : Nat) (st : PState)
    (h : st.peekToken = eofTok) : consumeSemisAux m st = st := by
  cases m with
  | zero => rfl
  | succ k =>
    rw [consumeSemisAux_succ, h]
    simp [eofTok]

/-- The loop equation of the Go for loop, satisfied by consumeSemis: the
step bound toks.length + 2 is always enough, so the definition unfolds one
iteration at a time. -/
theorem consumeSemis_eq (st : PState) :
    consumeSemis st =
      if st.peekToken.type = .SEMICOLON then consumeSemis (nextToken st) else st := by
  unfold consumeSemis
  rw [show st.toks.length + 2 = (st.toks.length + 1) + 1 from rfl, consumeSemisAux_succ]
  split
  · cases hl : st.toks with
    | nil =>
      have hpk : (nextToken st).peekToken = eofTok := by simp [nextToken, hl]
      rw [consumeSemisAux_eof _ _ hpk, consumeSemisAux_eof _ _ hpk]
    | cons a l =>
      have h2 : (nextToken st).toks.length = l.length := by simp [nextToken, hl]
      have h3 : (a :: l).length + 1 = l.length + 2 := by simp [List.length_cons]
      rw [h2, h3]
  · rfl

mutual

/-- Parser.parseExpression of the full revision. -/
def parseExpression : Nat → Nat → PState → PRes (Option Expr)
  | 0, _, _ => none
  | n + 1, precedence, st =>
    match prefixParseFns st.curToken.type with
    | none => some (none, noPrefixParseFnError st.curToken.type st)
    | some k =>
      match
        (match k with
         | .identK => some (parseIdentifier st)
         | .intK => some (parseIntegerLiteral st)
         | .boolK => some (parseBoolean st)
         | .strK => some (parseStringLiteral st)
         | .prefixK => parsePrefixExpression n st
         | .groupK => parseGroupedExpression n st
         | .ifK => parseIfExpression n st
         | .fnK => parseFunctionLiteral n st
         | .macroK => parseMacroLiteral n st
         | .arrayK => parseArrayLiteral n st
         | .hashK => parseHashLiteral n st) with
      | none => none
      | some (leftExp, st1) => parseExprLoop n precedence leftExp st1

/-- The for loop of parseExpression (full revision): while the peek token
is not a SEMICOLON and the argument precedence is strictly below the peek
precedence, advance and run the infix handler from the table. -/
def parseExprLoop : Nat → Nat → Option Expr → PState → PRes (Option Expr)
  | 0, _, _, _ => none
  | n + 1, precedence, leftExp, st =>
    if st.peekToken.type ≠ .SEMICOLON ∧ precedence < peekPrecedence st then
      match infixParseFns st.peekToken.type with
      | none => some (leftExp, st)
      | some k =>
        match
          (match k with
           | .infixK => parseInfixExpression n leftExp (nextToken st)
           | .callK => parseCallExpression n leftExp (nextToken st)
           | .indexK => parseIndexExpression n leftExp (nextToken st)) with
        | none => none
        | some (newLeft, st2) => parseExprLoop n precedence newLeft st2
    else some (leftExp, st)

/-- Parser.parseInfixExpression (full revision): identical to the
intermediate one; the recursion uses the current token precedence. -/
def parseInfixExpression : Nat → Option Expr → PState → PRes (Option Expr)
  | 0, _, _ => none
  | n + 1, left, st =>
    let tok := st.curToken
    let precedence := curPrecedence st
    match parseExpression n precedence (nextToken st) with
    | none => none
    | some (right, st1) =>
      some (some (.infixExpression tok tok.literal left right), st1)

/-- Parser.parseCallExpression: the arguments list may be nil. -/
def parseCallExpression : Nat → Option Expr → PState → PRes (Option Expr)
  | 0, _, _ => none
  | n + 1, left, st =>
    let tok := st.curToken
    match parseCallArguments n st with
    | none => none
    | some (args, st1) => some (some (.callExpression tok left args), st1)

/-- Parser.parseCallArguments: comma-separated expressions until RPAREN;
nil when the closing RPAREN is missing. -/
def parseCallArguments : Nat → PState → PRes (Option (List (Option Expr)))
  | 0, _ => none
  | n + 1, st =>
    if st.peekToken.type = .RPAREN then some (some [], nextToken st)
    else
      match parseExpression n LOWEST (nextToken st) with
      | none => none
      | some (a1, st1) =>
        match parseArgsLoop n [a1] st1 with
        | none => none
        | some (args, st2) =>
          match expectPeek .RPAREN st2 with
          | (false, st3) => some (none, st3)
          | (true, st3) => some (some args, st3)

/-- The comma loop of parseCallArguments. -/
def parseArgsLoop : Nat → List (Option Expr) → PState → PRes (List (Option Expr))
  | 0, _, _ => none
  | n + 1, acc, st =>
    if st.peekToken.type = .COMMA then
      match parseExpression n LOWEST (nextToken (nextToken st)) with
      | none => none
      | some (a, st1) => parseArgsLoop n (acc ++ [a]) st1
    else some (acc, st)

/-- Parser.parseIndexExpression: advance, parse the index at LOWEST,
expect RBRACKET (nil on failure). -/
def parseIndexExpression : Nat → Option Expr → PState → PRes (Option Expr)
  | 0, _, _ => none
  | n + 1, left, st =>
    let tok := st.curToken
    match parseExpression n LOWEST (nextToken st) with
    | none => none
    | some (idx, st1) =>
      match expectPeek .RBRACKET st1 with
      | (false, st2) => some (none, st2)
      | (true, st2) => some (some (.indexExpression tok left idx), st2)

/-- Parser.parsePrefixExpression (full revision). -/
def parsePrefixExpression : Nat → PState → PRes (Option Expr)
  | 0, _ => none
  | n + 1, st =>
    let tok := st.curToken
    match parseExpression n PREFIXOP (nextToken st) with
    | none => none
    | some (right, st1) =>
      some (some (.prefixExpression tok tok.literal right), st1)

/-- Parser.parseGroupedExpression (full revision). -/
def parseGroupedExpression : Nat → PState → PRes (Option Expr)
  | 0, _ => none
  | n + 1, st =>
    match parseExpression n LOWEST (nextToken st) with
    | none => none
    | some (exp, st1) =>
      match expectPeek .RPAREN st1 with
      | (false, st2) => some (none, st2)
      | (true, st2) => some (exp, st2)

/-- Parser.parseIfExpression (full revision). -/
def parseIfExpression : Nat → PState → PRes (Option Expr)
  | 0, _ => none
  | n + 1, st =>
    let tok := st.curToken
    match expectPeek .LPAREN st with
    | (false, st1) => some (none, st1)
    | (true, st1) =>
      match parseExpression n LOWEST (nextToken st1) with
      | none => none
      | some (cond, st2) =>
        match expectPeek .RPAREN st2 with
        | (false, st3) => some (none, st3)
        | (true, st3) =>
          match expectPeek .LBRACE st3 with
          | (false, st4) => some (none, st4)
          | (true, st4) =>
            match parseBlockStatement n st4 with
            | none => none
            | some (cons, st5) =>
              if st5.peekToken.type = .ELSE then
                match expectPeek .LBRACE (nextToken st5) with
                | (false, st6) => some (none, st6)
                | (true, st6) =>
                  match parseBlockStatement n st6 with
                  | none => none
                  | some (alt, st7) =>
                    some (some (.ifExpression tok cond cons (some alt)), st7)
              else some (some (.ifExpression tok cond cons none), st5)

/-- Parser.parseFunctionLiteral: the parameter list may be nil, the parse
continues regardless. -/
def parseFunctionLiteral : Nat → PState → PRes (Option Expr)
  | 0, _ => none
  | n + 1, st =>
    let tok := st.curToken
    match expectPeek .LPAREN st with
    | (false, st1) => some (none, st1)
    | (true, st1) =>
      match parseFunctionParameters n st1 with
      | none => none
      | some (params, st2) =>
        match expectPeek .LBRACE st2 with
        | (false, st3) => some (none, st3)
        | (true, st3) =>
          match parseBlockStatement n st3 with
          | none => none
          | some (body, st4) => some (some (.functionLiteral tok params body), st4)

/-- Parser.parseMacroLiteral: same shape as a function literal. -/
def parseMacroLiteral : Nat → PState → PRes (Option Expr)
  | 0, _ => none
  | n + 1, st =>
    let tok := st.curToken
    match expectPeek .LPAREN st with
    | (false, st1) => some (none, st1)
    | (true, st1) =>
      match parseFunctionParameters n st1 with
      | none => none
      | some (params, st2) =>
        match expectPeek .LBRACE st2 with
        | (false, st3) => some (none, st3)
        | (true, st3) =>
          match parseBlockStatement n st3 with
          | none => none
          | some (body, st4) => some (some (.macroLiteral tok params body), st4)

/-- Parser.parseFunctionParameters: nil when the closing RPAREN is
missing. -/
def parseFunctionParameters : Nat → PState → PRes (Option (List Ident))
  | 0, _ => none
  | n + 1, st =>
    if st.peekToken.type = .RPAREN then some (some [], nextToken st)
    else
      let st1 := nextToken st
      match parseParamsLoop n [⟨st1.curToken, st1.curToken.literal⟩] st1 with
      | none => none
      | some (ids, st2) =>
        match expectPeek .RPAREN st2 with
        | (false, st3) => some (none, st3)
        | (true, st3) => some (some ids, st3)

/-- The comma loop of parseFunctionParameters. -/
def parseParamsLoop : Nat → List Ident → PState → PRes (List Ident)
  | 0, _, _ => none
  | n + 1, acc, st =>
    if st.peekToken.type = .COMMA then
      let st1 := nextToken (nextToken st)
      parseParamsLoop n (acc ++ [⟨st1.curToken, st1.curToken.literal⟩]) st1
    else some (acc, st)

/-- Parser.parseStringLiteral is Junk.parseStringLiteral; array literals
wrap parseExpressionList. -/
def parseArrayLiteral : Nat → PState → PRes (Option Expr)
  | 0, _ => none
  | n + 1, st =>
    let tok := st.curToken
    match parseExpressionList n .RBRACKET st with
    | none => none
    | some (elts, st1) => some (some (.arrayLiteral tok elts), st1)

/-- Parser.parseExpressionList: comma-separated expressions until the end
token; nil when the end token is missing. -/
def parseExpressionList : Nat → TokenType → PState → PRes (Option (List (Option Expr)))
  | 0, _, _ => none
  | n + 1, endT, st =>
    if st.peekToken.type = endT then some (some [], nextToken st)
    else
      match parseExpression n LOWEST (nextToken st) with
      | none => none
      | some (e1, st1) =>
        match parseExprListLoop n [e1] st1 with
        | none => none
        | some (list, st2) =>
          match expectPeek endT st2 with
          | (false, st3) => some (none, st3)
          | (true, st3) => some (some list, st3)

/-- The comma loop of parseExpressionList. -/
def parseExprListLoop : Nat → List (Option Expr) → PState → PRes (List (Option Expr))
  | 0, _, _ => none
  | n + 1, acc, st =>
    if st.peekToken.type = .COMMA then
      match parseExpression n LOWEST (nextToken (nextToken st)) with
      | none => none
      | some (e, st1) => parseExprListLoop n (acc ++ [e]) st1
    else some (acc, st)

/-- Parser.parseHashLiteral: pairs until RBRACE; after each pair, either
the peek token is an RBRACE (loop about to exit) or a COMMA must follow;
nil (with a recorded error) on a failed COLON, COMMA or RBRACE
expectation.  The Go pairs map is keyed by freshly allocated node
pointers, so its contents are exactly the inserted pairs, modelled as the
list of pairs in insertion order. -/
def parseHashLiteral : Nat → PState → PRes (Option Expr)
  | 0, _ => none
  | n + 1, st =>
    let tok := st.curToken
    match parseHashLoop n [] st with
    | none => none
    | some (none, st1) => some (none, st1)
    | some (some pairs, st1) =>
      match expectPeek .RBRACE st1 with
      | (false, st2) => some (none, st2)
      | (true, st2) => some (some (.hashLiteral tok pairs), st2)

/-- The for loop of parseHashLiteral; the inner Option is none when the
loop body hit a return nil. -/
def parseHashLoop : Nat → List (Option Expr × Option Expr) → PState →
    PRes (Option (List (Option Expr × Option Expr)))
  | 0, _, _ => none
  | n + 1, pairs, st =>
    if st.peekToken.type = .RBRACE then some (some pairs, st)
    else
      match parseExpression n LOWEST (nextToken st) with
      | none => none
      | some (key, st1) =>
        match expectPeek .COLON st1 with
        | (false, st2) => some (none, st2)
        | (true, st2) =>
          match parseExpression n LOWEST (nextToken st2) with
          | none => none
          | some (value, st3) =>
            let pairs1 := pairs ++ [(key, value)]
            if st3.peekToken.type = .RBRACE then parseHashLoop n pairs1 st3
            else
              match expectPeek .COMMA st3 with
              | (false, st4) => some (none, st4)
              | (true, st4) => parseHashLoop n pairs1 st4

/-- Parser.parseBlockStatement (full revision); as in the source there is
no EOF guard in the loop condition. -/
def parseBlockStatement : Nat → PState → PRes Block
  | 0, _ => none
  | n + 1, st =>
    let tok := st.curToken
    match parseBlockLoop n [] (nextToken st) with
    | none => none
    | some (stmts, st1) => some (Block.mk tok stmts, st1)

/-- The for loop of parseBlockStatement. -/
def parseBlockLoop : Nat → List Stmt → PState → PRes (List Stmt)
  | 0, _, _ => none
  | n + 1, acc, st =>
    if st.curToken.type = .RBRACE then some (acc, st)
    else
      match parseStatement n st with
      | none => none
      | some (stmtOpt, st1) =>
        let acc1 := match stmtOpt with
          | some s => acc ++ [s]
          | none => acc
        parseBlockLoop n acc1 (nextToken st1)

/-- Parser.parseStatement of the full revision: LET, RETURN and WHILE
dispatch to their parsers, everything else to parseExpressionStatement.
parseLetStatement and parseReturnStatement return typed pointers, so even
their nil results become non-nil interface values (some applied to a
constructor applied to none); parseWhileStatement returns the interface
type itself, so its nil really is a nil interface (none). -/
def parseStatement : Nat → PState → PRes (Option Stmt)
  | 0, _ => none
  | n + 1, st =>
    match st.curToken.type with
    | .LET => (parseLetStatement n st).map fun r => (some (Stmt.letStmt r.1), r.2)
    | .RETURN => (parseReturnStatement n st).map fun r => (some (Stmt.returnStmt r.1), r.2)
    | .WHILE => (parseWhileStatement n st).map fun r => (r.1.map Stmt.whileStmt, r.2)
    | _ => (parseExpressionStatement n st).map fun r => (some (Stmt.exprStmt r.1), r.2)

/-- parseWhileStatement of the full revision: while ( EXPR ) BLOCK. -/
def parseWhileStatement : Nat → PState → PRes (Option WhileNode)
  | 0, _ => none
  | n + 1, st =>
    let tok := st.curToken
    match expectPeek .LPAREN st with
    | (false, st1) => some (none, st1)
    | (true, st1) =>
      match parseExpression n LOWEST (nextToken st1) with
      | none => none
      | some (cond, st2) =>
        match expectPeek .RPAREN st2 with
        | (false, st3) => some (none, st3)
        | (true, st3) =>
          match expectPeek .LBRACE st3 with
          | (false, st4) => some (none, st4)
          | (true, st4) =>
            match parseBlockStatement n st4 with
            | none => none
            | some (body, st5) => some (some (WhileNode.mk tok cond body), st5)

/-- Parser.parseLetStatement of the full revision: expect IDENT and
ASSIGN, advance, parse the value expression at LOWEST into the Value
field, then consume trailing semicolons (present only if there). -/
def parseLetStatement : Nat → PState → PRes (Option LetNode)
  | 0, _ => none
  | n + 1, st =>
    let tok := st.curToken
    match expectPeek .IDENT st with
    | (false, st1) => some (none, st1)
    | (true, st1) =>
      let name : Ident := ⟨st1.curToken, st1.curToken.literal⟩
      match expectPeek .ASSIGN st1 with
      | (false, st2) => some (none, st2)
      | (true, st2) =>
        match parseExpression n LOWEST (nextToken st2) with
        | none => none
        | some (v, st3) => some (some (LetNode.mk tok name v), consumeSemis st3)

/-- Parser.parseReturnStatement of the full revision. -/
def parseReturnStatement : Nat → PState → PRes (Option ReturnNode)
  | 0, _ => none
  | n + 1, st =>
    let tok := st.curToken
    match parseExpression n LOWEST (nextToken st) with
    | none => none
    | some (v, st1) => some (some (ReturnNode.mk tok v), consumeSemis st1)

/-- Parser.parseExpressionStatement (full revision, same text as the
intermediate one). -/
def parseExpressionStatement : Nat → PState → PRes ExprStmtNode
  | 0, _ => none
  | n + 1, st =>
    let tok := st.curToken
    match parseExpression n LOWEST st with
    | none => none
    | some (e, st1) =>
      let st2 := if st1.peekToken.type = .SEMICOLON then nextToken st1 else st1
      some (ExprStmtNode.mk tok e, st2)

/-- Parser.ParseProgram (full revision): statements until EOF, keeping a
statement when the returned interface value is not nil. -/
def ParseProgram : Nat → PState → PRes Program
  | 0, _ => none
  | n + 1, st =>
    if st.curToken.type = .EOF then some (⟨[]⟩, st)
    else
      match parseStatement n st with
      | none => none
      | some (stmtOpt, st1) =>
        match ParseProgram n (nextToken st1) with
        | none => none
        | some (prog, st2) =>
          match stmtOpt with
          | some s => some (⟨s :: prog.statements⟩, st2)
          | none => some (prog, st2)

end

end FullParser

/-!
Helper lemmas shared by the claim theorems.
-/

/-- If no reachable token of the state is a SEMICOLON (neither the current
nor the peek token nor any token still in the supply; an exhausted supply
yields only EOF tokens), the skip loop of the intermediate parseLetStatement
and parseReturnStatement never finds its exit condition: it exhausts any
amount of fuel. -/
theorem skipToSemicolon_diverges (n : Nat) :
    ∀ st : Junk.PState, st.curToken.type ≠ .SEMICOLON →
      st.peekToken.type ≠ .SEMICOLON →
      (∀ t ∈ st.toks, t.type ≠ .SEMICOLON) →
      MidParser.skipToSemicolon n st = none := by
  induction n with
  | zero => intro st _ _ _; rfl
  | succ k ih =>
    intro st h1 h2 h3
    rw [MidParser.skipToSemicolon, if_neg h1]
    apply ih
    · simpa [Junk.nextToken] using h2
    · cases hl : st.toks with
      | nil => simp [Junk.nextToken, hl, Junk.eofTok]
      | cons a l =>
        simp only [Junk.nextToken, hl, List.headD]
        exact h3 a (by simp [hl])
    · intro t ht
      apply h3
      simp only [Junk.nextToken] at ht
      exact List.mem_of_mem_tail ht

/-!
The claim theorems.
-/

/-- C1: the claim states that ParseProgram terminates on every finite
input, in particular on a let statement without its trailing semicolon,
the semicolon being optional.  On the cited code (parseLetStatement of
src/junk/parser/parser.go) this fails: the skip loop advances until the
current token is a SEMICOLON with no EOF guard, and the lexer keeps
producing EOF tokens after the end of the input, so on the input
"let x = 5" the loop never exits.  Formally: ParseProgram on the token
stream of that input exhausts every fuel bound. -/
theorem parseProgram_let_missing_semicolon_diverges :
    ∀ k : Nat,
      MidParser.ParseProgram k
        (Junk.initState (Lexer.lexAll "let x = 5".toList)) = none := by
  have hskip : ∀ j, MidParser.skipToSemicolon j
      ⟨⟨.ASSIGN, "="⟩, ⟨.INT, "5"⟩, [⟨.EOF, ""⟩], []⟩ = none := by
    intro j
    apply skipToSemicolon_diverges <;> decide
  have hlet : ∀ j, MidParser.parseLetStatement j
      (Junk.initState (Lexer.lexAll "let x = 5".toList)) = none := by
    intro j
    match j with
    | 0 => rfl
    | i + 1 =>
      show (match MidParser.skipToSemicolon i
              ⟨⟨.ASSIGN, "="⟩, ⟨.INT, "5"⟩, [⟨.EOF, ""⟩], []⟩ with
            | none => (none : Junk.PRes (Option LetNode))
            | some st3 =>
              some (some (LetNode.mk ⟨.LET, "let"⟩ ⟨⟨.IDENT, "x"⟩, "x"⟩ none), st3)) = none
      rw [hskip i]
  have hstmt : ∀ j, MidParser.parseStatement (j + 1)
      (Junk.initState (Lexer.lexAll "let x = 5".toList)) = none := by
    intro j
    show (MidParser.parseLetStatement j
        (Junk.initState (Lexer.lexAll "let x = 5".toList))).map
        (fun r => (some (Stmt.letStmt r.1), r.2)) = none
    rw [hlet j]
    rfl
  intro k
  match k with
  | 0 => rfl
  | k + 1 =>
    show (match MidParser.parseStatement k
            (Junk.initState (Lexer.lexAll "let x = 5".toList)) with
          | none => (none : Junk.PRes Program)
          | some (stmtOpt, st1) =>
            match MidParser.ParseProgram k (Junk.nextToken st1) with
            | none => none
            | some (prog, st2) =>
              match stmtOpt with
              | some s => some (⟨s :: prog.statements⟩, st2)
              | none => some (prog, st2)) = none
    match k with
    | 0 => rfl
    | i + 1 => rw [hstmt i]

/-- C2: the claim states that the tokenizer peeks after reading an equals
sign, emitting EQ for a double equals and NOT_EQ for bang equals.  The
lexer of src/junk/lexer/lexer.go has no peeking at all: its switch maps an
equals sign unconditionally to ASSIGN, and a bang is not in the switch at
all; isLetter classifies it as a letter, so a bang starts an identifier.
On the two-character inputs below the claimed single EQ and NOT_EQ tokens
never appear: a double equals lexes as two ASSIGN tokens and bang equals
lexes as the identifier consisting of the bang followed by an ASSIGN. -/
theorem doubleEquals_and_bangEquals_lexing :
    Lexer.lexAll "==".toList =
      [⟨.ASSIGN, "="⟩, ⟨.ASSIGN, "="⟩, ⟨.EOF, ""⟩] ∧
    Lexer.lexAll "!=".toList =
      [⟨.IDENT, "!"⟩, ⟨.ASSIGN, "="⟩, ⟨.EOF, ""⟩] :=
  ⟨rfl, rfl⟩

/-- C4: the claim states that an opening double quote starts a STRING
token holding the inner text.  The lexer of src/junk/lexer/lexer.go has no
case for the quote character: it falls into the default branch, is neither
a letter nor a digit, and comes out as an ILLEGAL token, so the input
consisting of hi in double quotes lexes as ILLEGAL, IDENT, ILLEGAL and no
STRING token is ever produced. -/
theorem string_input_lexes_to_illegal :
    Lexer.lexAll "\"hi\"".toList =
      [⟨.ILLEGAL, "\""⟩, ⟨.IDENT, "hi"⟩, ⟨.ILLEGAL, "\""⟩, ⟨.EOF, ""⟩] :=
  rfl

/-- C5: the claim states that quote rewrites every unquote call inside its
argument, splicing in the evaluated argument (an integer becoming an
IntegerLiteral).  The quote function of src/junk/evaluator/quote_unquote.go
is a single constructor application with no traversal: applied to the AST
of quote(unquote(4))s argument, the call expression of unquote stays in
the wrapped node unchanged, and the result differs from the Quote of the
IntegerLiteral 4 that the claim requires. -/
theorem quote_leaves_unquote_call_unchanged :
    Evaluator.quote (Node.exprNode (.callExpression ⟨.LPAREN, "("⟩
        (some (.identifier ⟨.IDENT, "unquote"⟩ "unquote"))
        (some [some (.integerLiteral ⟨.INT, "4"⟩ 4)]))) =
      Object.quoteObj (Node.exprNode (.callExpression ⟨.LPAREN, "("⟩
        (some (.identifier ⟨.IDENT, "unquote"⟩ "unquote"))
        (some [some (.integerLiteral ⟨.INT, "4"⟩ 4)]))) ∧
    Evaluator.quote (Node.exprNode (.callExpression ⟨.LPAREN, "("⟩
        (some (.identifier ⟨.IDENT, "unquote"⟩ "unquote"))
        (some [some (.integerLiteral ⟨.INT, "4"⟩ 4)]))) ≠
      Object.quoteObj (Node.exprNode (.integerLiteral ⟨.INT, "4"⟩ 4)) := by
  refine ⟨rfl, ?_⟩
  intro h
  injection h with h1
  injection h1 with h2
  cases h2

/-- C7: for any two of the eight registered binary operator token types of
equal precedence and any identifier operands, the stream a OP1 b OP2 c
parses to the left-nested tree ((a OP1 b) OP2 c): parseInfixExpression
recurses with the current tokens precedence and the loop condition of
parseExpression is a strict comparison, so the inner recursion stops at an
operator of equal precedence and the outer loop extends the left spine.
Stated on the cited intermediate revision at fuel 10, ample for the
five-token stream. -/
theorem equal_precedence_left_assoc
    (o1 o2 : TokenType) (l1 l2 a b c : String)
    (h1 : o1 ∈ [TokenType.PLUS, .MINUS, .SLASH, .ASTERISK, .EQ, .NOT_EQ, .LT, .GT])
    (h2 : o2 ∈ [TokenType.PLUS, .MINUS, .SLASH, .ASTERISK, .EQ, .NOT_EQ, .LT, .GT])
    (hp : MidParser.precedences o1 = MidParser.precedences o2) :
    MidParser.parseExpression 10 Junk.LOWEST (Junk.initState
      [⟨.IDENT, a⟩, ⟨o1, l1⟩, ⟨.IDENT, b⟩, ⟨o2, l2⟩, ⟨.IDENT, c⟩]) =
    some (some (.infixExpression ⟨o2, l2⟩ l2
        (some (.infixExpression ⟨o1, l1⟩ l1
          (some (.identifier ⟨.IDENT, a⟩ a))
          (some (.identifier ⟨.IDENT, b⟩ b))))
        (some (.identifier ⟨.IDENT, c⟩ c))),
      ⟨⟨.IDENT, c⟩, Junk.eofTok, [], []⟩) := by
  fin_cases h1 <;> fin_cases h2 <;>
    first
    | exact absurd hp (by decide)
    | rfl

/-- C7 witness: the theorem applied to PLUS and MINUS (both of SUM
precedence) at concrete operand names. -/
theorem equal_precedence_left_assoc_witness :
    TokenType.PLUS ∈ [TokenType.PLUS, .MINUS, .SLASH, .ASTERISK, .EQ, .NOT_EQ, .LT, .GT] ∧
    TokenType.MINUS ∈ [TokenType.PLUS, .MINUS, .SLASH, .ASTERISK, .EQ, .NOT_EQ, .LT, .GT] ∧
    MidParser.precedences .PLUS = MidParser.precedences .MINUS ∧
    MidParser.parseExpression 10 Junk.LOWEST (Junk.initState
      [⟨.IDENT, "a"⟩, ⟨.PLUS, "+"⟩, ⟨.IDENT, "b"⟩, ⟨.MINUS, "-"⟩, ⟨.IDENT, "c"⟩]) =
    some (some (.infixExpression ⟨.MINUS, "-"⟩ "-"
        (some (.infixExpression ⟨.PLUS, "+"⟩ "+"
          (some (.identifier ⟨.IDENT, "a"⟩ "a"))
          (some (.identifier ⟨.IDENT, "b"⟩ "b"))))
        (some (.identifier ⟨.IDENT, "c"⟩ "c"))),
      ⟨⟨.IDENT, "c"⟩, Junk.eofTok, [], []⟩) :=
  ⟨by decide, by decide, by decide,
    equal_precedence_left_assoc .PLUS .MINUS "+" "-" "a" "b" "c"
      (by decide) (by decide) (by decide)⟩

/-- C8 counterexample: the claim states that a hash literal with a
trailing comma does not parse (an error is recorded and nil returned).  On
the token stream of a hash of one pair followed by a comma and the closing
brace, parseHashLiteral of the full revision returns a HashLiteral node
with the parsed pair, and the error list of the final state is empty. -/
theorem hash_trailing_comma_accepted_example :
    FullParser.parseHashLiteral 10 (Junk.initState
      [⟨.LBRACE, "\x7b"⟩, ⟨.STRING, "a"⟩, ⟨.COLON, ":"⟩, ⟨.INT, "1"⟩,
       ⟨.COMMA, ","⟩, ⟨.RBRACE, "\x7d"⟩]) =
      some (some (.hashLiteral ⟨.LBRACE, "\x7b"⟩
        [(some (.stringLiteral ⟨.STRING, "a"⟩ "a"),
          some (.integerLiteral ⟨.INT, "1"⟩ 1))]),
        ⟨⟨.RBRACE, "\x7d"⟩, Junk.eofTok, [], []⟩) := rfl

/-- C8 amended: a trailing comma after the last pair is accepted: after
expectPeek consumes the COMMA the loop head sees the RBRACE and exits, and
parseHashLiteral returns the HashLiteral with the parsed pairs and no
recorded error.  Stated for any key literal and any literals of the
punctuation tokens. -/
theorem hash_trailing_comma_accepted (s l1 l2 l3 l4 : String) :
    FullParser.parseHashLiteral 10 (Junk.initState
      [⟨.LBRACE, l1⟩, ⟨.STRING, s⟩, ⟨.COLON, l2⟩, ⟨.INT, "1"⟩,
       ⟨.COMMA, l3⟩, ⟨.RBRACE, l4⟩]) =
      some (some (.hashLiteral ⟨.LBRACE, l1⟩
        [(some (.stringLiteral ⟨.STRING, s⟩ s),
          some (.integerLiteral ⟨.INT, "1"⟩ 1))]),
        ⟨⟨.RBRACE, l4⟩, Junk.eofTok, [], []⟩) := rfl

/-- C9 counterexample: the claim states that the Program returned by
ParseProgram contains no statement with a nil expression field, an
ExpressionStatement being included only when its expression parsed.  On
the one-token input consisting of a lone semicolon, parseExpression finds
no prefix handler, records the error and returns nil, yet
parseExpressionStatement still returns the statement with the nil
Expression field, and ParseProgram includes it in the Program. -/
theorem parseProgram_keeps_nil_expression_example :
    MidParser.ParseProgram 4 (Junk.initState (Lexer.lexAll ";".toList)) =
      some (⟨[Stmt.exprStmt (ExprStmtNode.mk ⟨.SEMICOLON, ";"⟩ none)]⟩,
        ⟨Junk.eofTok, Junk.eofTok, [], [Junk.noPrefixMsg .SEMICOLON]⟩) := rfl

/-- C9 amended: a nil expression returned by a sub-parser is signalled
through the recorded error but is NOT filtered out of the Program:
parseExpressionStatement stores the nil expression and returns a non-nil
statement, which ParseProgram appends, so the Program of a one-token input
with no prefix handler (here a SEMICOLON token with any literal) is one
ExpressionStatement whose expression field is nil, with exactly the
no-prefix error recorded. -/
theorem parseProgram_keeps_nil_expression (lit : String) :
    MidParser.ParseProgram 4 (Junk.initState [⟨.SEMICOLON, lit⟩]) =
      some (⟨[Stmt.exprStmt (ExprStmtNode.mk ⟨.SEMICOLON, lit⟩ none)]⟩,
        ⟨Junk.eofTok, Junk.eofTok, [], [Junk.noPrefixMsg .SEMICOLON]⟩) := rfl

/-- C10: expectPeek frame property.  On a peek-type match it returns true
with the window advanced by exactly one token (the new current token is
the old peek token, the head of the supply becomes the peek token) and the
error list unchanged; on a mismatch it returns false with curToken,
peekToken and the token supply untouched and with exactly one message
appended to the error list. -/
theorem expectPeek_frame (st : Junk.PState) (t : TokenType) :
    (st.peekToken.type = t →
      Junk.expectPeek t st = (true, Junk.nextToken st) ∧
      (Junk.expectPeek t st).2.curToken = st.peekToken ∧
      (Junk.expectPeek t st).2.toks = st.toks.tail ∧
      (Junk.expectPeek t st).2.errors = st.errors) ∧
    (st.peekToken.type ≠ t →
      (Junk.expectPeek t st).1 = false ∧
      (Junk.expectPeek t st).2.curToken = st.curToken ∧
      (Junk.expectPeek t st).2.peekToken = st.peekToken ∧
      (Junk.expectPeek t st).2.toks = st.toks ∧
      (Junk.expectPeek t st).2.errors =
        st.errors ++ [Junk.expectedMsg t st.peekToken.type]) := by
  constructor
  · intro h
    simp [Junk.expectPeek, h, Junk.nextToken]
  · intro h
    simp [Junk.expectPeek, h, Junk.peekError]

/-- C10 witness: both branches of the theorem at a concrete state (current
token LET, peek token an IDENT, empty supply): expecting IDENT succeeds
and advances, expecting ASSIGN fails and appends the one message. -/
theorem expectPeek_frame_witness :
    ((⟨⟨.LET, "let"⟩, ⟨.IDENT, "x"⟩, [], []⟩ : Junk.PState).peekToken.type = .IDENT ∧
      Junk.expectPeek .IDENT ⟨⟨.LET, "let"⟩, ⟨.IDENT, "x"⟩, [], []⟩ =
        (true, Junk.nextToken ⟨⟨.LET, "let"⟩, ⟨.IDENT, "x"⟩, [], []⟩)) ∧
    ((⟨⟨.LET, "let"⟩, ⟨.IDENT, "x"⟩, [], []⟩ : Junk.PState).peekToken.type ≠ .ASSIGN ∧
      (Junk.expectPeek .ASSIGN ⟨⟨.LET, "let"⟩, ⟨.IDENT, "x"⟩, [], []⟩).2.errors =
        [] ++ [Junk.expectedMsg .ASSIGN .IDENT]) := by
  constructor
  · exact ⟨rfl, ((expectPeek_frame ⟨⟨.LET, "let"⟩, ⟨.IDENT, "x"⟩, [], []⟩ .IDENT).1 rfl).1⟩
  · refine ⟨by decide, ?_⟩
    exact ((expectPeek_frame ⟨⟨.LET, "let"⟩, ⟨.IDENT, "x"⟩, [], []⟩ .ASSIGN).2
      (by decide)).2.2.2.2

/-- C3: for a successfully parsed let statement of the full revision, the
Name field is the identifier token that followed the let keyword (with its
literal as value) and the Value field is exactly the result of parsing the
expression after the assignment; in particular the value is populated, not
left empty.  The state passed to parseExpression is the window advanced
three times: past the expectPeek of IDENT, the expectPeek of ASSIGN and
the explicit nextToken. -/
theorem parseLetStatement_sets_name_and_value
    (n : Nat) (st : Junk.PState) (v : Option Expr) (st4 : Junk.PState)
    (hident : st.peekToken.type = .IDENT)
    (hassign : (Junk.nextToken st).peekToken.type = .ASSIGN)
    (hval : FullParser.parseExpression n Junk.LOWEST
        (Junk.nextToken (Junk.nextToken (Junk.nextToken st))) = some (v, st4)) :
    FullParser.parseLetStatement (n + 1) st =
      some (some (LetNode.mk st.curToken
          ⟨(Junk.nextToken st).curToken, (Junk.nextToken st).curToken.literal⟩ v),
        FullParser.consumeSemis st4) := by
  simp only [FullParser.parseLetStatement, Junk.expectPeek, hident, hassign, hval,
    if_pos, reduceCtorEq, reduceIte]

/-- C3 witness: the theorem applied at the token stream of the source text
let x = 5 with a trailing semicolon, at fuel 5 for the value expression:
the name is x and the value the IntegerLiteral 5. -/
theorem parseLetStatement_sets_name_and_value_witness :
    (Junk.initState (Lexer.lexAll "let x = 5;".toList)).peekToken.type = .IDENT ∧
    (Junk.nextToken (Junk.initState (Lexer.lexAll "let x = 5;".toList))).peekToken.type = .ASSIGN ∧
    FullParser.parseExpression 5 Junk.LOWEST
      (Junk.nextToken (Junk.nextToken (Junk.nextToken
        (Junk.initState (Lexer.lexAll "let x = 5;".toList))))) =
      some (some (.integerLiteral ⟨.INT, "5"⟩ 5),
        ⟨⟨.INT, "5"⟩, ⟨.SEMICOLON, ";"⟩, [⟨.EOF, ""⟩], []⟩) ∧
    FullParser.parseLetStatement 6 (Junk.initState (Lexer.lexAll "let x = 5;".toList)) =
      some (some (LetNode.mk ⟨.LET, "let"⟩ ⟨⟨.IDENT, "x"⟩, "x"⟩
          (some (.integerLiteral ⟨.INT, "5"⟩ 5))),
        ⟨⟨.SEMICOLON, ";"⟩, Junk.eofTok, [], []⟩) :=
  ⟨rfl, rfl, rfl,
    parseLetStatement_sets_name_and_value 5
      (Junk.initState (Lexer.lexAll "let x = 5;".toList)) _ _ rfl rfl rfl⟩

/-- C6: parseStatement of the full revision dispatches on the current
token type, LET, RETURN and WHILE to their statement parsers and every
other type to parseExpressionStatement (first conjunct, an exact equation
for the dispatch); and on well-formed input the while parser returns a
WhileStatement whose Condition is the parse of the expression between the
parentheses and whose Body is the parse of the block (second conjunct). -/
theorem parseStatement_dispatch_and_while :
    (∀ (n : Nat) (st : Junk.PState),
      FullParser.parseStatement (n + 1) st =
        match st.curToken.type with
        | .LET => (FullParser.parseLetStatement n st).map
            fun r => (some (Stmt.letStmt r.1), r.2)
        | .RETURN => (FullParser.parseReturnStatement n st).map
            fun r => (some (Stmt.returnStmt r.1), r.2)
        | .WHILE => (FullParser.parseWhileStatement n st).map
            fun r => (r.1.map Stmt.whileStmt, r.2)
        | _ => (FullParser.parseExpressionStatement n st).map
            fun r => (some (Stmt.exprStmt r.1), r.2)) ∧
    (∀ (n : Nat) (st : Junk.PState) (cond : Option Expr) (st2 : Junk.PState)
        (blk : Block) (st3 : Junk.PState),
      st.peekToken.type = .LPAREN →
      FullParser.parseExpression n Junk.LOWEST (Junk.nextToken (Junk.nextToken st)) =
        some (cond, st2) →
      st2.peekToken.type = .RPAREN →
      (Junk.nextToken st2).peekToken.type = .LBRACE →
      FullParser.parseBlockStatement n (Junk.nextToken (Junk.nextToken st2)) =
        some (blk, st3) →
      FullParser.parseWhileStatement (n + 1) st =
        some (some (WhileNode.mk st.curToken cond blk), st3)) := by
  constructor
  · intro n st
    rfl
  · intro n st cond st2 blk st3 hlparen hcond hrparen hlbrace hblock
    simp only [FullParser.parseWhileStatement, Junk.expectPeek, hlparen, hcond,
      hrparen, hlbrace, hblock, if_pos, reduceCtorEq, reduceIte]

/-- C6 witness: the while conjunct of the theorem applied at the token
stream of the source text while (x) with a one-statement block, at fuel 6
for the condition and the block. -/
theorem parseStatement_dispatch_and_while_witness :
    (Junk.initState (Lexer.lexAll "while (x) \x7b y \x7d".toList)).peekToken.type = .LPAREN ∧
    FullParser.parseExpression 6 Junk.LOWEST
      (Junk.nextToken (Junk.nextToken
        (Junk.initState (Lexer.lexAll "while (x) \x7b y \x7d".toList)))) =
      some (some (.identifier ⟨.IDENT, "x"⟩ "x"),
        ⟨⟨.IDENT, "x"⟩, ⟨.RPAREN, ")"⟩, [⟨.LBRACE, "\x7b"⟩, ⟨.IDENT, "y"⟩,
          ⟨.RBRACE, "\x7d"⟩, ⟨.EOF, ""⟩], []⟩) ∧
    FullParser.parseWhileStatement 7
      (Junk.initState (Lexer.lexAll "while (x) \x7b y \x7d".toList)) =
      some (some (WhileNode.mk ⟨.WHILE, "while"⟩
          (some (.identifier ⟨.IDENT, "x"⟩ "x"))
          (Block.mk ⟨.LBRACE, "\x7b"⟩
            [Stmt.exprStmt (ExprStmtNode.mk ⟨.IDENT, "y"⟩
              (some (.identifier ⟨.IDENT, "y"⟩ "y")))])),
        ⟨⟨.RBRACE, "\x7d"⟩, Junk.eofTok, [], []⟩) :=
  ⟨rfl, rfl,
    parseStatement_dispatch_and_while.2 6
      (Junk.initState (Lexer.lexAll "while (x) \x7b y \x7d".toList)) _ _ _ _
      rfl rfl rfl rfl rfl⟩
